import Mathlib

/-!
Verification of the `webfunny_dejs` deobfuscator core (`de.js`) against its
natural-language specification.  The JavaScript source is shallowly embedded:
Babel AST nodes become the inductive `Node`, JavaScript runtime values become
`JsValue`, and each source function of `de.js` is translated into an
executable Lean definition carrying the same name.  Recursive tree traversals
take an explicit recursion-depth argument (`FUEL`) so that every definition is
structurally recursive and kernel-reducible; `FUEL` exceeds the depth of every
program considered here, and no theorem depends on the cutoff.
-/

/-- Recursion-depth bound for tree traversals.  Traversals recurse once per
nesting level of the syntax tree, so 64 covers every program considered. -/
def FUEL : Nat := 64

/-- JavaScript runtime values as far as the deobfuscator observes them:
the primitive kinds the rewriter can encode as literal nodes, plus `object`
for non-primitive results (the rewriter's unrepresentable case). -/
inductive JsValue where
  | str (value : String)
  | num (value : Int)
  | bool (value : Bool)
  | null
  | undefined
  | object
deriving DecidableEq, BEq, Repr

/-- Babel AST nodes, restricted to the node kinds `de.js` inspects.
`numLit` carries an integer value: the fractional/integer distinction of
JavaScript numbers plays no role in any control decision of the source.
`varDeclarator` and `objectProperty` are separate nodes, as in Babel, since
the extraction visitors hang handlers on them and ancestor chains contain
them. -/
inductive Node where
  | strLit (value : String)
  | numLit (value : Int)
  | boolLit (value : Bool)
  | nullLit
  | ident (name : String)
  | unary (op : String) (argument : Node)
  | binary (op : String) (left : Node) (right : Node)
  | call (callee : Node) (args : List Node)
  | member (obj : Node) (property : Node)
  | functionExpr (params : List String) (body : List Node)
  | objectExpr (props : List Node)
  | objectProperty (key : String) (value : Node)
  | arrayExpr (elements : List Node)
  | assign (left : Node) (right : Node)
  | exprStmt (expression : Node)
  | varDecl (kind : String) (declarations : List Node)
  | varDeclarator (name : String) (init : Option Node)
  | funcDecl (name : String) (params : List String) (body : List Node)
  | doWhile (body : List Node) (test : Node)
  | tryStmt (block : List Node) (handler : List Node)
  | ret (argument : Option Node)
  | exportNamed (declaration : Node)
  | exportDefault (declaration : Node)

/-- The run configuration (`config` object of `de.js`).  The two regular
expressions are embedded as their `.test` predicates, since `de.js` only ever
calls `.test` on them; `minArgs`/`maxArgs` are carried verbatim.  Diagnostic
flags (`verbose`, `debug`, `traceLines`, `outputDebug`) have no semantic
effect and are omitted. -/
structure Config where
  interceptPatternTest : String → Bool
  functionNamePatternTest : Option (String → Bool)
  minArgs : Nat
  maxArgs : Nat
  disableReplace : Bool
  cleanupFunctions : String

/-- The default configuration of `de.js` (yargs defaults): intercept pattern
`f\d*`, whose unanchored `.test` accepts exactly the names containing the
letter `f` (the `\d*` part may match emptily); no function-name filter;
argument window 4..6; replacement enabled; cleanup mode `none`. -/
def defaultConfig : Config where
  interceptPatternTest := fun s => s.toList.contains 'f'
  functionNamePatternTest := none
  minArgs := 4
  maxArgs := 6
  disableReplace := false
  cleanupFunctions := "none"

/-- `shouldInterceptFunction` (de.js 115-133).  Checks the optional
function-name filter, then the intercept pattern.  The argument count is
received but deliberately not enforced: the source only echoes an
out-of-window count in a verbose log line (the relaxation comment at
de.js 126-130) and still returns `true`. -/
def shouldInterceptFunction (cfg : Config) (funcName : String) (argsCount : Nat) : Bool :=
  match cfg.functionNamePatternTest with
  | some test => if !(test funcName) then false else cfg.interceptPatternTest funcName
  | none =>
    let _ := argsCount
    cfg.interceptPatternTest funcName

/-- The fixed reserved-word list of `extractFunctionName` (de.js 698). -/
def reservedKeywords : List String :=
  ["default", "function", "var", "let", "const", "if", "else", "for", "while", "do",
   "switch", "case", "break", "continue", "return", "this", "typeof", "instanceof",
   "new", "delete", "void", "in", "try", "catch", "finally", "throw", "class",
   "extends", "super", "import", "export", "null", "true", "false", "undefined",
   "NaN", "Infinity"]

/-- `extractFunctionName` (de.js 688-709).  A plain identifier callee yields
its name; a member-expression callee with an identifier property yields the
property name unless it is a reserved keyword; every other callee yields no
name. -/
def extractFunctionName : Node → Option String
  | .ident name => some name
  | .member _ (.ident propertyName) =>
    if reservedKeywords.contains propertyName then none else some propertyName
  | _ => none

/-- `extractConstantArguments` (de.js 479-494).  Maps each argument node to
its captured JavaScript value; any non-constant argument maps to `undefined`
(the source's sentinel).  Note that an explicit `undefined` identifier
argument also maps to `undefined` (de.js 485), making it indistinguishable
from the non-constant sentinel. -/
def extractConstantArguments (args : List Node) : List JsValue :=
  args.map fun arg =>
    match arg with
    | .strLit s => .str s
    | .numLit n => .num n
    | .boolLit b => .bool b
    | .nullLit => .null
    | .ident "undefined" => .undefined
    | .unary "-" (.numLit n) => .num (-n)
    | _ => .undefined

/-- The per-argument check `arg !== undefined` of the `allConstants` test
(de.js 743 and its copies). -/
def isNotUndefined : JsValue → Bool
  | .undefined => false
  | _ => true

/-- `isInitializationFunction` (de.js 501-530) as a predicate on the ancestor
chain of a call path (nearest ancestor first): true iff some ancestor is a
call whose callee is an inline function expression (an IIFE), a do/while
loop, or a try statement. -/
def isInitializationFunction (ancestors : List Node) : Bool :=
  ancestors.any fun a =>
    match a with
    | .call (.functionExpr _ _) _ => true
    | .doWhile _ _ => true
    | .tryStmt _ _ => true
    | _ => false

/-- Decimal digit character. -/
def digitChar : Nat → Char
  | 0 => '0' | 1 => '1' | 2 => '2' | 3 => '3' | 4 => '4'
  | 5 => '5' | 6 => '6' | 7 => '7' | 8 => '8' | _ => '9'

/-- Decimal digits of a natural number (fuel-bounded; `n + 1` fuel always
suffices since the argument shrinks by a factor of ten each step). -/
def natDigits : Nat → Nat → List Char
  | 0, _ => []
  | fuel + 1, n => if n < 10 then [digitChar n] else natDigits fuel (n / 10) ++ [digitChar (n % 10)]

/-- Print a natural number in decimal. -/
def natToStr (n : Nat) : String := String.mk (natDigits (n + 1) n)

/-- Print an integer the way the Babel generator prints a numeric literal. -/
def intToStr : Int → String
  | .ofNat n => natToStr n
  | .negSucc m => "-" ++ natToStr (m + 1)

/-- Deterministic printer standing in for the Babel generator
(`generate(node).code` and `path.toString()`).  The exact layout of the
external printer is out of scope; what the analysis relies on is only that
the same printer keys the result map, drives the rewriter's lookups and
names the immediate-function cleanup keys, which holds here because every
component below uses this one definition. -/
def printNode : Nat → Node → String
  | 0, _ => ""
  | fuel + 1, n =>
    match n with
    | .strLit s => "\"" ++ s ++ "\""
    | .numLit i => intToStr i
    | .boolLit b => if b then "true" else "false"
    | .nullLit => "null"
    | .ident name => name
    | .unary op a => op ++ printNode fuel a
    | .binary op l r => printNode fuel l ++ " " ++ op ++ " " ++ printNode fuel r
    | .call c args =>
      printNode fuel c ++ "(" ++ String.intercalate ", " (args.map (fun a => printNode fuel a)) ++ ")"
    | .member o p => printNode fuel o ++ "." ++ printNode fuel p
    | .functionExpr params body =>
      "function (" ++ String.intercalate ", " params ++ ") \x7b " ++
        String.intercalate " " (body.map (fun s => printNode fuel s)) ++ " \x7d"
    | .objectExpr props =>
      "\x7b " ++ String.intercalate ", " (props.map (fun p => printNode fuel p)) ++ " \x7d"
    | .objectProperty k v => k ++ ": " ++ printNode fuel v
    | .arrayExpr es =>
      "[" ++ String.intercalate ", " (es.map (fun e => printNode fuel e)) ++ "]"
    | .assign l r => printNode fuel l ++ " = " ++ printNode fuel r
    | .exprStmt e => printNode fuel e ++ ";"
    | .varDecl kind ds =>
      kind ++ " " ++ String.intercalate ", " (ds.map (fun d => printNode fuel d)) ++ ";"
    | .varDeclarator name i =>
      match i with
      | some e => name ++ " = " ++ printNode fuel e
      | none => name
    | .funcDecl name params body =>
      "function " ++ name ++ "(" ++ String.intercalate ", " params ++ ") \x7b " ++
        String.intercalate " " (body.map (fun s => printNode fuel s)) ++ " \x7d"
    | .doWhile body t =>
      "do \x7b " ++ String.intercalate " " (body.map (fun s => printNode fuel s)) ++
        " \x7d while (" ++ printNode fuel t ++ ");"
    | .tryStmt b h =>
      "try \x7b " ++ String.intercalate " " (b.map (fun s => printNode fuel s)) ++
        " \x7d catch (e) \x7b " ++ String.intercalate " " (h.map (fun s => printNode fuel s)) ++ " \x7d"
    | .ret a =>
      match a with
      | some e => "return " ++ printNode fuel e ++ ";"
      | none => "return;"
    | .exportNamed d => "export " ++ printNode fuel d
    | .exportDefault d => "export default " ++ printNode fuel d

/-- `generate(node).code` / `path.toString()` at the standard depth bound. -/
def printTree (n : Node) : String := printNode FUEL n

/-- Result of `Object.prototype.toString` on a raw Babel AST node.  The
specialized extraction visitors (de.js 775, 806, 837, 867) invoke
`.toString()` on plain node objects - not on paths - and Babel parser nodes
define no custom `toString`, so JavaScript yields this constant string. -/
def nodeDefaultToString : String := "[object Object]"

/-- One record of the `actualCalls` list (de.js 747-752): the recorded call
text, resolved callee name, captured constant arguments, and the call node
itself (`path` in the source). -/
structure CallInfo where
  callExpression : String
  funcName : String
  args : List JsValue
  node : Node

/-- The shared body of the five extraction visitors of
`extractActualFunctionCalls`: resolve the callee name, apply
`shouldInterceptFunction`, skip initialization contexts, capture constant
arguments, and record the call when all arguments pass the
`arg !== undefined` test.  `recordedText` is the `callExpression` the
particular visitor stores: `path.toString()` for the `CallExpression`
visitor, the raw node's default string form for the four specialized
visitors. -/
def processCallCandidate (cfg : Config) (ancestors : List Node) (recordedText : String)
    (n : Node) : List CallInfo :=
  match n with
  | .call callee args =>
    match extractFunctionName callee with
    | some funcName =>
      if shouldInterceptFunction cfg funcName args.length then
        if isInitializationFunction ancestors then []
        else
          let vals := extractConstantArguments args
          if vals.all isNotUndefined then
            [{ callExpression := recordedText, funcName := funcName, args := vals,
               node := .call callee args }]
          else []
      else []
    | none => []
  | _ => []

/-- The child nodes of a node, in Babel's traversal order. -/
def childNodes : Node → List Node
  | .strLit _ | .numLit _ | .boolLit _ | .nullLit | .ident _ => []
  | .unary _ a => [a]
  | .binary _ l r => [l, r]
  | .call c args => c :: args
  | .member o p => [o, p]
  | .functionExpr _ body => body
  | .objectExpr props => props
  | .objectProperty _ v => [v]
  | .arrayExpr es => es
  | .assign l r => [l, r]
  | .exprStmt e => [e]
  | .varDecl _ ds => ds
  | .varDeclarator _ i => i.toList
  | .funcDecl _ _ body => body
  | .doWhile body t => body ++ [t]
  | .tryStmt b h => b ++ h
  | .ret a => a.toList
  | .exportNamed d | .exportDefault d => [d]

/-- Is the node a call expression (the `type === 'CallExpression'` checks of
the specialized visitors)? -/
def isCallExpression : Node → Bool
  | .call _ _ => true
  | _ => false

/-- Depth-first traversal implementing the visitor set of
`extractActualFunctionCalls` (de.js 716-885).  At each node the handler for
the node's own type fires, then the children are visited with the node
pushed onto the ancestor chain.  The `CallExpression` handler records
`path.toString()`; the `ObjectProperty`, `ArrayExpression`,
`AssignmentExpression` and `VariableDeclarator` handlers record
`node.toString()` (the object default string) and additionally fire on the
relevant child call, so a call in one of those positions is recorded twice,
exactly as in the source. -/
def visitNode (cfg : Config) : Nat → List Node → Node → List CallInfo
  | 0, _, _ => []
  | fuel + 1, ancestors, n =>
    let here : List CallInfo :=
      match n with
      | .call c args => processCallCandidate cfg ancestors (printTree (.call c args)) (.call c args)
      | .objectProperty _ v =>
        if isCallExpression v then
          processCallCandidate cfg (n :: ancestors) nodeDefaultToString v
        else []
      | .arrayExpr es =>
        (es.filter isCallExpression).flatMap
          (fun e => processCallCandidate cfg (n :: ancestors) nodeDefaultToString e)
      | .assign _ r =>
        if isCallExpression r then
          processCallCandidate cfg (n :: ancestors) nodeDefaultToString r
        else []
      | .varDeclarator _ (some init) =>
        if isCallExpression init then
          processCallCandidate cfg (n :: ancestors) nodeDefaultToString init
        else []
      | _ => []
    here ++ (childNodes n).flatMap (fun c => visitNode cfg fuel (n :: ancestors) c)

/-- `extractActualFunctionCalls` (de.js 716-885) over a parsed program
(list of top-level statements). -/
def extractActualFunctionCalls (cfg : Config) (program : List Node) : List CallInfo :=
  program.flatMap (fun s => visitNode cfg FUEL [] s)

/-- JavaScript `Map.get` on the result map (keys are call texts). -/
def mapGet (m : List (String × JsValue)) (k : String) : Option JsValue :=
  (m.find? (fun p => p.1 == k)).map (fun p => p.2)

/-- JavaScript `Map.set`: overwrite an existing key in place, otherwise
append in insertion order. -/
def mapSet (m : List (String × JsValue)) (k : String) (v : JsValue) : List (String × JsValue) :=
  if m.any (fun p => p.1 == k) then m.map (fun p => if p.1 == k then (k, v) else p)
  else m ++ [(k, v)]

/-- The keys of the result map. -/
def mapKeys (m : List (String × JsValue)) : List String := m.map (fun p => p.1)

/-- Semantics of the driver section assembled by `generateFunctionTestCode`
(de.js 894-1032) running inside the sandbox: for each entry of
`actualCalls`, one generated line invokes
`safeCall(funcName, args, callExpression)` (the embedded key string is
escaped at de.js 989 and unescaped again by the JavaScript string literal,
so the key used at run time is exactly `callExpression`).  `safeCall`
records the returned value in `globalResults` under the key on success and
records nothing on a thrown error (de.js 901-949).  The helper invocation
itself happens inside the black-box sandbox and is abstracted by `evalFn`,
with `none` standing for a per-call failure. -/
def runDriver (evalFn : String → List JsValue → Option JsValue) :
    List CallInfo → List (String × JsValue) → List (String × JsValue)
  | [], results => results
  | c :: rest, results =>
    runDriver evalFn rest
      (match evalFn c.funcName c.args with
       | some v => mapSet results c.callExpression v
       | none => results)

/-- Conversion of a captured sandbox result into a replacement literal node
(de.js 1074-1092): string, number, boolean, null and undefined results each
yield a literal node; a non-primitive result yields none and the call is
skipped. -/
def literalOfResult : JsValue → Option Node
  | .str s => some (.strLit s)
  | .num n => some (.numLit n)
  | .bool b => some (.boolLit b)
  | .null => some .nullLit
  | .undefined => some (.ident "undefined")
  | .object => none

/-- The `CallExpression` visitor of `applyCallExpressionReplacements`
(de.js 1057-1104), as a top-down tree rewrite.  A call with a plain
identifier callee other than `__interceptFunctionCall` whose name passes
`shouldInterceptFunction` and whose printed form is a key of the result map
is replaced by the literal for the stored value, and the traversal does not
descend into the replaced node; in every other case the traversal continues
into the children.  Member-expression callees never match the
`callee.type === 'Identifier'` guard and are left to the child traversal. -/
def rewriteNode (cfg : Config) (resultMap : List (String × JsValue)) : Nat → Node → Node
  | 0, n => n
  | fuel + 1, n =>
    match n with
    | .call (.ident funcName) args =>
      if funcName == "__interceptFunctionCall" then
        .call (.ident funcName) (args.map (fun a => rewriteNode cfg resultMap fuel a))
      else if shouldInterceptFunction cfg funcName args.length then
        match mapGet resultMap (printTree (.call (.ident funcName) args)) with
        | some v =>
          match literalOfResult v with
          | some lit => lit
          | none => .call (.ident funcName) (args.map (fun a => rewriteNode cfg resultMap fuel a))
        | none => .call (.ident funcName) (args.map (fun a => rewriteNode cfg resultMap fuel a))
      else .call (.ident funcName) (args.map (fun a => rewriteNode cfg resultMap fuel a))
    | .call c args =>
      .call (rewriteNode cfg resultMap fuel c) (args.map (fun a => rewriteNode cfg resultMap fuel a))
    | .unary op a => .unary op (rewriteNode cfg resultMap fuel a)
    | .binary op l r =>
      .binary op (rewriteNode cfg resultMap fuel l) (rewriteNode cfg resultMap fuel r)
    | .member o p => .member (rewriteNode cfg resultMap fuel o) (rewriteNode cfg resultMap fuel p)
    | .functionExpr ps b => .functionExpr ps (b.map (fun s => rewriteNode cfg resultMap fuel s))
    | .objectExpr props => .objectExpr (props.map (fun p => rewriteNode cfg resultMap fuel p))
    | .objectProperty k v => .objectProperty k (rewriteNode cfg resultMap fuel v)
    | .arrayExpr es => .arrayExpr (es.map (fun e => rewriteNode cfg resultMap fuel e))
    | .assign l r => .assign (rewriteNode cfg resultMap fuel l) (rewriteNode cfg resultMap fuel r)
    | .exprStmt e => .exprStmt (rewriteNode cfg resultMap fuel e)
    | .varDecl kind ds => .varDecl kind (ds.map (fun d => rewriteNode cfg resultMap fuel d))
    | .varDeclarator name i => .varDeclarator name (i.map (fun e => rewriteNode cfg resultMap fuel e))
    | .funcDecl name ps b => .funcDecl name ps (b.map (fun s => rewriteNode cfg resultMap fuel s))
    | .doWhile b t =>
      .doWhile (b.map (fun s => rewriteNode cfg resultMap fuel s)) (rewriteNode cfg resultMap fuel t)
    | .tryStmt b h =>
      .tryStmt (b.map (fun s => rewriteNode cfg resultMap fuel s))
        (h.map (fun s => rewriteNode cfg resultMap fuel s))
    | .ret a => .ret (a.map (fun e => rewriteNode cfg resultMap fuel e))
    | .exportNamed d => .exportNamed (rewriteNode cfg resultMap fuel d)
    | .exportDefault d => .exportDefault (rewriteNode cfg resultMap fuel d)
    | leaf => leaf

/-- `applyCallExpressionReplacements` (de.js 1042-1116) at the syntax-tree
level: when replacement is disabled or the result map is empty the program
is returned unchanged (de.js 1044-1046); otherwise every statement is
rewritten by the call-expression visitor. -/
def applyCallExpressionReplacements (cfg : Config) (resultMap : List (String × JsValue))
    (program : List Node) : List Node :=
  if cfg.disableReplace || resultMap.isEmpty then program
  else program.map (fun s => rewriteNode cfg resultMap FUEL s)

/-- The base64 alphabet used by `Buffer.from(code).toString('base64')`. -/
def base64Alphabet : List Char :=
  "ABCDEFGHIJKLMNOPQRSTUVWXYZabcdefghijklmnopqrstuvwxyz0123456789+/".toList

/-- Character of the base64 alphabet at a 6-bit index. -/
def base64CharAt (i : Nat) : Char := base64Alphabet.getD i 'A'

/-- Standard base64 encoding of a byte sequence (with padding). -/
def base64Encode : List Nat → String
  | [] => ""
  | [b1] =>
    String.mk [base64CharAt (b1 / 4), base64CharAt (b1 % 4 * 16), '=', '=']
  | [b1, b2] =>
    String.mk [base64CharAt (b1 / 4), base64CharAt (b1 % 4 * 16 + b2 / 16),
      base64CharAt (b2 % 16 * 4), '=']
  | b1 :: b2 :: b3 :: rest =>
    String.mk [base64CharAt (b1 / 4), base64CharAt (b1 % 4 * 16 + b2 / 16),
      base64CharAt (b2 % 16 * 4 + b3 / 64), base64CharAt (b3 % 64)] ++ base64Encode rest

/-- The byte sequence of a source string (`Buffer.from(code)` uses UTF-8;
the programs treated here are ASCII, where the bytes are the code points). -/
def sourceBytes (s : String) : List Nat := s.toList.map Char.toNat

/-- The cleanup key of an immediate function: the string
`immediate_` followed by the first ten base64 characters of the printed
statement (de.js 1219 and 1370). -/
def immediateKey (code : String) : String :=
  "immediate_" ++ (base64Encode (sourceBytes code)).take 10

/-- All nodes of a subtree in depth-first preorder (the node set visited by
a Babel `traverse` started at the subtree's parent). -/
def allNodes : Nat → Node → List Node
  | 0, _ => []
  | fuel + 1, n => n :: (childNodes n).flatMap (fun c => allNodes fuel c)

/-- All nodes of a program, in traversal order. -/
def programNodes (program : List Node) : List Node :=
  program.flatMap (fun s => allNodes FUEL s)

/-- The nodes a Babel `traverse(node, ...)` call visits: the descendants of
the root, excluding the root itself. -/
def descendantNodes (n : Node) : List Node :=
  (childNodes n).flatMap (fun c => allNodes FUEL c)

/-- Worker for `insertionOrderDedup`, carrying the names already seen. -/
def insertionOrderDedupGo : List String → List String → List String
  | [], _ => []
  | a :: rest, seen =>
    if seen.contains a then insertionOrderDedupGo rest seen
    else a :: insertionOrderDedupGo rest (a :: seen)

/-- First-occurrence deduplication, the observable content of a JavaScript
`Set` filled by repeated `add` calls. -/
def insertionOrderDedup (l : List String) : List String :=
  insertionOrderDedupGo l []

/-- The `exportedFunctions` collection of `analyzeFunctionsForCleanup`
(de.js 1142-1153): names of function declarations directly under an export
declaration. -/
def collectExportedFunctions (program : List Node) : List String :=
  (programNodes program).filterMap fun n =>
    match n with
    | .exportNamed (.funcDecl name _ _) => some name
    | .exportDefault (.funcDecl name _ _) => some name
    | _ => none

/-- The `allFunctions` set of `analyzeFunctionsForCleanup` (de.js 1156-1173):
names of function declarations and function-expression bindings matching the
intercept pattern. -/
def collectMatchedFunctions (cfg : Config) (program : List Node) : List String :=
  insertionOrderDedup <|
    (programNodes program).filterMap fun n =>
      match n with
      | .funcDecl name _ _ => if cfg.interceptPatternTest name then some name else none
      | .varDeclarator name (some (.functionExpr _ _)) =>
        if cfg.interceptPatternTest name then some name else none
      | _ => none

/-- The reference count a name receives from the `CallExpression` visitor of
`analyzeFunctionsForCleanup` (de.js 1175-1180): the number of call nodes in
the tree whose resolved callee name equals it. -/
def functionReferenceCount (program : List Node) (funcName : String) : Nat :=
  (programNodes program).countP fun n =>
    match n with
    | .call callee _ => extractFunctionName callee == some funcName
    | _ => false

/-- The two cleanup sets computed by `analyzeFunctionsForCleanup`
(de.js 1125-1279) before its final, crashing branch. -/
structure CleanupData where
  functions : List String
  immediateFunctions : List String

/-- The analysis body of `analyzeFunctionsForCleanup` up to de.js 1250: a
non-exported matched function is marked for cleanup when some `actualCalls`
entry names it (`isOnlyCalledByConstants`, de.js 1194, an existential despite
its name) and its reference count in the post-rewrite tree is at most the
number of `actualCalls` entries naming it (de.js 1200); an immediate function
statement is marked when every call inside its callee that matches the
intercept pattern prints to a key of the result map (de.js 1213-1250). -/
def analyzeCleanupSets (cfg : Config) (program : List Node)
    (callExpressionMap : List (String × JsValue)) (actualCalls : List CallInfo) : CleanupData :=
  let exported := collectExportedFunctions program
  let allFunctions := collectMatchedFunctions cfg program
  let functionsToCleanup := allFunctions.filter fun funcName =>
    if exported.contains funcName then false
    else
      let isOnlyCalledByConstants := actualCalls.any (fun c => c.funcName == funcName)
      let referenceCount := functionReferenceCount program funcName
      isOnlyCalledByConstants &&
        decide (referenceCount ≤ (actualCalls.filter (fun c => c.funcName == funcName)).length)
  let immediateFunctionsToCleanup := (programNodes program).filterMap fun n =>
    match n with
    | .exprStmt (.call (.functionExpr ps b) args) =>
      let stmtCode := printTree (.exprStmt (.call (.functionExpr ps b) args))
      let hasUnreplacedCalls := (descendantNodes (.functionExpr ps b)).any fun m =>
        match m with
        | .call callee _ =>
          match extractFunctionName callee with
          | some g =>
            cfg.interceptPatternTest g && !((mapKeys callExpressionMap).contains (printTree m))
          | none => false
        | _ => false
      if hasUnreplacedCalls then none else some (immediateKey stmtCode)
    | _ => none
  { functions := functionsToCleanup, immediateFunctions := immediateFunctionsToCleanup }

/-- The body of the branch `if (shouldCleanupImmediateFunctions) ...`
(de.js 1252-1267): were it ever to run, it would add the cleanup key of
every immediate-function statement, unconditionally. -/
def collectAllImmediateKeys (program : List Node) : List String :=
  (programNodes program).filterMap fun n =>
    match n with
    | .exprStmt (.call (.functionExpr ps b) args) =>
      some (immediateKey (printTree (.exprStmt (.call (.functionExpr ps b) args))))
    | _ => none

/-- A JavaScript runtime exception, as far as the model needs one. -/
structure JsError where
  message : String

/-- The identifiers in scope at de.js 1252, inside
`analyzeFunctionsForCleanup`: its parameters, its local bindings, the
module-level bindings of de.js, and the ambient Node.js globals.
`shouldCleanupImmediateFunctions` is bound nowhere in the file. -/
def cleanupAnalysisScope : List String :=
  ["code", "callExpressionMap", "actualCalls",
   "functionsToCleanup", "immediateFunctionsToCleanup", "ast", "allFunctions",
   "functionReferences", "exportedFunctions", "immediateFunctionCallsToCheck",
   "fs", "path", "vm", "yargs", "hideBin", "parser", "traverse", "generate", "t",
   "argv", "config",
   "shouldInterceptFunction", "processStringReverse", "preprocessCode",
   "collectInitializationFunctionCalls", "topologicalSort", "extractFunctionDefinitions",
   "extractConstantArguments", "isInitializationFunction", "extractImmediateFunctions",
   "instrumentFunctionWithTracing", "extractFunctionName", "extractActualFunctionCalls",
   "generateFunctionTestCode", "applyCallExpressionReplacements",
   "analyzeFunctionsForCleanup", "cleanupDecryptedFunctions",
   "analyzeFunctionCallDifferences", "saveDebugLogs", "createContext",
   "processWithNewStrategy", "main",
   "console", "Buffer", "require", "module", "exports", "global", "process",
   "setTimeout", "setInterval", "clearTimeout", "clearInterval", "JSON", "Map",
   "Set", "Date", "Math", "Object", "Array", "String", "Number", "Boolean",
   "RegExp", "Error", "undefined", "NaN", "Infinity", "parseInt", "parseFloat"]

/-- Evaluation of a bare identifier: referencing a name bound in scope
yields its value (the Boolean it carries is immaterial below, since every
lookup reasoned about is of an absent name); referencing an unbound name
throws a ReferenceError. -/
def lookupIdent (scope : List String) (name : String) : Except JsError Bool :=
  if scope.contains name then .ok true
  else .error { message := "ReferenceError: " ++ name ++ " is not defined" }

/-- `analyzeFunctionsForCleanup` (de.js 1125-1279).  The cleanup sets are
accumulated, then the guard of the final branch reads the unbound identifier
`shouldCleanupImmediateFunctions` (de.js 1252); the resulting ReferenceError
is caught by the function's enclosing handler (de.js 1269-1273), which only
logs, and the sets accumulated so far are returned (de.js 1275-1278).  The
second component records whether the guarded branch body executed. -/
def analyzeFunctionsForCleanup (cfg : Config) (program : List Node)
    (callExpressionMap : List (String × JsValue)) (actualCalls : List CallInfo) :
    CleanupData × Bool :=
  let data := analyzeCleanupSets cfg program callExpressionMap actualCalls
  match lookupIdent cleanupAnalysisScope "shouldCleanupImmediateFunctions" with
  | .ok b =>
    if b then
      ({ data with immediateFunctions := data.immediateFunctions ++ collectAllImmediateKeys program },
       true)
    else (data, false)
  | .error _ => (data, false)

/-- The cleanup traversal of `cleanupDecryptedFunctions` (de.js 1306-1396)
on one node; `none` means the node is removed from its containing list.
In `remove` mode marked nodes are removed with `path.remove()`.  In
`comment` mode the source replaces the marked node with
`parser.parse(commentedCode).program.body`, and since `commentedCode`
consists solely of block comments that body is empty, so the node is
likewise removed from the statement list.  A variable declaration whose
declarators were all removed is itself removed, as Babel removes a
container left empty.  Unmarked nodes keep their structure and the
traversal continues below them. -/
def cleanupNode (data : CleanupData) (cleanupMode : String) : Nat → Node → Option Node
  | 0, n => some n
  | fuel + 1, n =>
    match n with
    | .funcDecl name ps body =>
      if data.functions.contains name then
        if cleanupMode == "comment" || cleanupMode == "remove" then none
        else some (.funcDecl name ps (body.filterMap (fun s => cleanupNode data cleanupMode fuel s)))
      else some (.funcDecl name ps (body.filterMap (fun s => cleanupNode data cleanupMode fuel s)))
    | .varDecl kind ds =>
      let ds2 := ds.filterMap fun d =>
        match d with
        | .varDeclarator nm (some (.functionExpr fps fb)) =>
          if data.functions.contains nm then
            if cleanupMode == "comment" || cleanupMode == "remove" then none
            else some (.varDeclarator nm (some (.functionExpr fps
              (fb.filterMap (fun s => cleanupNode data cleanupMode fuel s)))))
          else some (.varDeclarator nm (some (.functionExpr fps
            (fb.filterMap (fun s => cleanupNode data cleanupMode fuel s)))))
        | d2 => (cleanupNode data cleanupMode fuel d2).getD d2 |> some
      if !ds.isEmpty && ds2.isEmpty then none else some (.varDecl kind ds2)
    | .exprStmt (.call (.functionExpr ps b) args) =>
      if data.immediateFunctions.contains
          (immediateKey (printTree (.exprStmt (.call (.functionExpr ps b) args)))) then
        if cleanupMode == "comment" || cleanupMode == "remove" then none
        else some (.exprStmt (.call (.functionExpr ps b) args))
      else
        some (.exprStmt (.call
          (.functionExpr ps (b.filterMap (fun s => cleanupNode data cleanupMode fuel s)))
          (args.map (fun a => (cleanupNode data cleanupMode fuel a).getD a))))
    | .exprStmt e => some (.exprStmt ((cleanupNode data cleanupMode fuel e).getD e))
    | .functionExpr ps b =>
      some (.functionExpr ps (b.filterMap (fun s => cleanupNode data cleanupMode fuel s)))
    | .doWhile b t =>
      some (.doWhile (b.filterMap (fun s => cleanupNode data cleanupMode fuel s))
        ((cleanupNode data cleanupMode fuel t).getD t))
    | .tryStmt b h =>
      some (.tryStmt (b.filterMap (fun s => cleanupNode data cleanupMode fuel s))
        (h.filterMap (fun s => cleanupNode data cleanupMode fuel s)))
    | .varDeclarator nm i =>
      some (.varDeclarator nm (i.map (fun e => (cleanupNode data cleanupMode fuel e).getD e)))
    | .call c args =>
      some (.call ((cleanupNode data cleanupMode fuel c).getD c)
        (args.map (fun a => (cleanupNode data cleanupMode fuel a).getD a)))
    | .exportNamed d => (cleanupNode data cleanupMode fuel d).map (fun d2 => .exportNamed d2)
    | .exportDefault d => (cleanupNode data cleanupMode fuel d).map (fun d2 => .exportDefault d2)
    | other => some other

/-- `cleanupDecryptedFunctions` (de.js 1288-1408) at the syntax-tree level:
nothing happens when both cleanup sets are empty or the mode is `none`
(de.js 1291-1293); otherwise marked function declarations,
function-expression bindings and immediate-function statements are cleaned
throughout the tree. -/
def cleanupDecryptedFunctions (program : List Node) (cleanupData : CleanupData)
    (cleanupMode : String) : List Node :=
  if (cleanupData.functions.isEmpty && cleanupData.immediateFunctions.isEmpty)
      || cleanupMode == "none" then program
  else program.filterMap (fun s => cleanupNode cleanupData cleanupMode FUEL s)

/-- Print a program back to source text. -/
def printProgram (program : List Node) : String :=
  String.intercalate "\n" (program.map printTree)

/-- Character list of the literal part `.split("").reverse().join("")` of
the string-reverse idiom. -/
def reverseIdiomSuffix : List Char := ".split(\"\").reverse().join(\"\")".toList

/-- Scan up to the next double quote: the content before it (which contains
no quote, as `[^"]*` demands) and the remainder after it. -/
def takeUntilQuote : List Char → Option (List Char × List Char)
  | [] => none
  | c :: rest =>
    if c == '\"' then some ([], rest)
    else
      match takeUntilQuote rest with
      | some (content, rem) => some (c :: content, rem)
      | none => none

/-- Strip an expected literal character sequence from the front of the
input, yielding the remainder on success. -/
def stripLiteralChars : List Char → List Char → Option (List Char)
  | [], rest => some rest
  | _ :: _, [] => none
  | p :: ps, c :: cs => if p == c then stripLiteralChars ps cs else none

/-- Attempt to match the regular expression
`"([^"]*)"\.split\(""\)\.reverse\(\)\.join\(""\)` of `processStringReverse`
(de.js 140) at the start of the input.  The character class excludes the
quote, so the captured content is forced to extend exactly to the next
quote; on success the capture and the remainder after the whole match are
returned. -/
def tryMatchReverseIdiom (cs : List Char) : Option (List Char × List Char) :=
  match cs with
  | c :: rest =>
    if c == '\"' then
      match takeUntilQuote rest with
      | some (content, rem) =>
        match stripLiteralChars reverseIdiomSuffix rem with
        | some rem2 => some (content, rem2)
        | none => none
      | none => none
    else none
  | [] => none

/-- The global-replace loop of `String.prototype.replace` with the idiom
pattern: scan left to right, replace each match with the quoted reversed
capture, and resume scanning after the end of the match.  Fuel is the
character count; each step consumes at least one input character. -/
def processReverseChars : Nat → List Char → List Char
  | 0, cs => cs
  | _ + 1, [] => []
  | fuel + 1, c :: cs =>
    match tryMatchReverseIdiom (c :: cs) with
    | some (content, rest) =>
      '\"' :: (content.reverse ++ '\"' :: processReverseChars fuel rest)
    | none => c :: processReverseChars fuel cs

/-- `processStringReverse` (de.js 138-161): replace every occurrence of
`"<chars>".split("").reverse().join("")` with the quoted reversal of
`<chars>`. -/
def processStringReverse (code : String) : String :=
  String.mk (processReverseChars code.toList.length code.toList)

/-- Does the text still contain an occurrence of the reverse idiom? -/
def hasReverseIdiomChars : List Char → Bool
  | [] => false
  | c :: cs => (tryMatchReverseIdiom (c :: cs)).isSome || hasReverseIdiomChars cs

/-- String form of `hasReverseIdiomChars`. -/
def hasReverseIdiom (s : String) : Bool := hasReverseIdiomChars s.toList

/-- `preprocessCode` (de.js 168-185): run the string-reverse pass inside a
try block; on an internal exception, log and return the input unchanged.
The possibly-throwing body is abstracted as `stringReverseOp` (its actual
instantiation is `fun c => .ok (processStringReverse c)`). -/
def preprocessCode (stringReverseOp : String → Except JsError String) (code : String) : String :=
  match stringReverseOp code with
  | .ok processed => processed
  | .error _ => code

/-- `applyCallExpressionReplacements` at the source-text level
(de.js 1042-1116): the guard of de.js 1044, then `parser.parse` inside the
try block (abstracted as the possibly-throwing `parse`), the tree rewrite,
and regeneration; the catch (de.js 1112-1115) returns the input text
unchanged. -/
def applyCallExpressionReplacementsOnSource (parse : String → Except JsError (List Node))
    (cfg : Config) (resultMap : List (String × JsValue)) (code : String) : String :=
  if cfg.disableReplace || resultMap.isEmpty then code
  else
    match parse code with
    | .ok ast => printProgram (ast.map (fun s => rewriteNode cfg resultMap FUEL s))
    | .error _ => code

/-- `cleanupDecryptedFunctions` at the source-text level (de.js 1288-1408):
the guard of de.js 1291, then parse inside the try block, the cleanup
traversal, and regeneration; the catch (de.js 1404-1407) returns the input
text unchanged. -/
def cleanupDecryptedFunctionsOnSource (parse : String → Except JsError (List Node))
    (code : String) (cleanupData : CleanupData) (cleanupMode : String) : String :=
  if (cleanupData.functions.isEmpty && cleanupData.immediateFunctions.isEmpty)
      || cleanupMode == "none" then code
  else
    match parse code with
    | .ok ast => printProgram (ast.filterMap (fun s => cleanupNode cleanupData cleanupMode FUEL s))
    | .error _ => code

/-- Boolean expressions of the miniature statement language used to model
the body of a helper shipped to the sandbox. -/
inductive BExp where
  | btrue
  | bfalse
deriving DecidableEq

/-- Evaluation of the Boolean expressions. -/
def evalB : BExp → Bool
  | .btrue => true
  | .bfalse => false

/-- Statements of the miniature language: enough to express the
nonterminating helper body `while (true) {}` of the failing input. -/
inductive Cmd where
  | skip
  | seq (first second : Cmd)
  | whileC (test : BExp) (body : Cmd)
deriving DecidableEq

/-- Small-step execution of one statement; `none` means the statement
finished. -/
def stepCmd : Cmd → Option Cmd
  | .skip => none
  | .seq a b =>
    match stepCmd a with
    | none => some b
    | some a2 => some (.seq a2 b)
  | .whileC t body => if evalB t then some (.seq body (.whileC t body)) else none

/-- State of the Node.js process during `processWithNewStrategy`
(de.js 1641-1683): the synchronous `vm.runInContext(testCode, context)` job
(`none` once it has returned) and whether the callback of the
`setTimeout(..., 30000)` guard (de.js 1646-1648) has run. -/
structure NodeProcessState where
  vmJob : Option Cmd
  timeoutCallbackRan : Bool

/-- One event-loop turn of the Node.js run-to-completion model: as long as
the synchronous VM job is running it takes the next step; timer callbacks
can only run once the synchronous job has completed.  This is the semantics
the setTimeout-based guard of de.js 1644-1648 is subject to. -/
def nodeStep (p : NodeProcessState) : NodeProcessState :=
  match p.vmJob with
  | some c => { p with vmJob := stepCmd c }
  | none => { p with timeoutCallbackRan := true }

/-- Iterated event-loop turns. -/
def nodeRun : Nat → NodeProcessState → NodeProcessState
  | 0, p => p
  | n + 1, p => nodeRun n (nodeStep p)

/-- The body of the looping helper of the failing input,
`function f1(a, b, c, d) { while (true) {} }`: once the driver's first
`safeCall` invokes it, the VM job executes this statement. -/
def loopingHelperBody : Cmd := .whileC .btrue .skip

/-- The process state at the moment `vm.runInContext` (de.js 1651) enters
the looping helper body: the synchronous job is running it and the timeout
callback has not run. -/
def vmExecutionStart : NodeProcessState :=
  { vmJob := some loopingHelperBody, timeoutCallbackRan := false }

/-- The options `de.js` passes to `vm.runInContext(testCode, context)`
(de.js 1651): no options object at all, hence no `timeout` option; the only
timeout mechanism in the function is the `setTimeout` guard above it. -/
def runInContextTimeoutOption : Option Nat := none

/-- The Scenario 2 program of the specification:
`function f1(x){return x*2;} function f2(x){return f1(x)+1;}`
`(function(){ f2(3); })(); var y = f2(10);`. -/
def scenario2Program : List Node :=
  [.funcDecl "f1" ["x"] [.ret (some (.binary "*" (.ident "x") (.numLit 2)))],
   .funcDecl "f2" ["x"] [.ret (some (.binary "+" (.call (.ident "f1") [.ident "x"]) (.numLit 1)))],
   .exprStmt (.call (.functionExpr [] [.exprStmt (.call (.ident "f2") [.numLit 3])]) []),
   .varDecl "var" [.varDeclarator "y" (some (.call (.ident "f2") [.numLit 10]))]]

/-- Sandbox semantics of the Scenario 2 helpers: `f2(x) = f1(x) + 1 = 2x + 1`. -/
def scenario2Eval : String → List JsValue → Option JsValue := fun f args =>
  if f == "f2" && args == [JsValue.num 10] then some (.num 21)
  else if f == "f2" && args == [JsValue.num 3] then some (.num 7)
  else none

/-- The pure call list the extractor produces for Scenario 2. -/
def scenario2Calls : List CallInfo :=
  extractActualFunctionCalls defaultConfig scenario2Program

/-- The result map of the Scenario 2 run. -/
def scenario2ResultMap : List (String × JsValue) :=
  runDriver scenario2Eval scenario2Calls []

/-- The ancestor chain (nearest first) of the call `f2(3)` inside the
immediately-invoked block of Scenario 2, as the traversal reaches it. -/
def scenario2InnerCallAncestors : List Node :=
  [.exprStmt (.call (.ident "f2") [.numLit 3]),
   .functionExpr [] [.exprStmt (.call (.ident "f2") [.numLit 3])],
   .call (.functionExpr [] [.exprStmt (.call (.ident "f2") [.numLit 3])]) [],
   .exprStmt (.call (.functionExpr [] [.exprStmt (.call (.ident "f2") [.numLit 3])]) [])]

/-- A program with a textual collision between an initializer-context call
and a pure call: `(function(){ f1(3); })(); var z = f1(3);`. -/
def collisionProgram : List Node :=
  [.exprStmt (.call (.functionExpr [] [.exprStmt (.call (.ident "f1") [.numLit 3])]) []),
   .varDecl "var" [.varDeclarator "z" (some (.call (.ident "f1") [.numLit 3]))]]

/-- Sandbox semantics for the collision program: `f1(3) = 7`. -/
def collisionEval : String → List JsValue → Option JsValue := fun f args =>
  if f == "f1" && args == [JsValue.num 3] then some (.num 7) else none

/-- The result map of the collision-program run, produced by the driver
from the extracted pure calls. -/
def collisionResultMap : List (String × JsValue) :=
  runDriver collisionEval (extractActualFunctionCalls defaultConfig collisionProgram) []

/-- The ancestor chain (nearest first) of the call `f1(3)` inside the
immediately-invoked block of the collision program. -/
def collisionInnerCallAncestors : List Node :=
  [.exprStmt (.call (.ident "f1") [.numLit 3]),
   .functionExpr [] [.exprStmt (.call (.ident "f1") [.numLit 3])],
   .call (.functionExpr [] [.exprStmt (.call (.ident "f1") [.numLit 3])]) [],
   .exprStmt (.call (.functionExpr [] [.exprStmt (.call (.ident "f1") [.numLit 3])]) [])]

/-- A program whose single pure call has one argument, far outside the
default window [4, 6]: `var y = f1(3);`. -/
def oneArgProgram : List Node :=
  [.varDecl "var" [.varDeclarator "y" (some (.call (.ident "f1") [.numLit 3]))]]

/-- Sandbox semantics for the one-argument program: `f1(3) = 42`. -/
def oneArgEval : String → List JsValue → Option JsValue := fun f args =>
  if f == "f1" && args == [JsValue.num 3] then some (.num 42) else none

/-- The result map of the one-argument run. -/
def oneArgResultMap : List (String × JsValue) :=
  runDriver oneArgEval (extractActualFunctionCalls defaultConfig oneArgProgram) []

/-- The argument list of the Scenario 6 variant with an explicit `undefined`
argument: `f123(1, 2, 3, undefined)`. -/
def undefinedArgList : List Node :=
  [.numLit 1, .numLit 2, .numLit 3, .ident "undefined"]

/-- The program `var r = f123(1, 2, 3, undefined);`: all four arguments are
literals in the specification's sense, one of them the explicit absent
value. -/
def undefinedArgProgram : List Node :=
  [.varDecl "var" [.varDeclarator "r" (some (.call (.ident "f123") undefinedArgList))]]

/-- The Scenario 4 program: `obj.default(1, 2, 3, 4);`. -/
def scenario4Program : List Node :=
  [.exprStmt (.call (.member (.ident "obj") (.ident "default"))
    [.numLit 1, .numLit 2, .numLit 3, .numLit 4])]

/-- The Scenario 6 program of claim C2:
`function f123(a,b,c,d){return a+b+c+d;}`
`var x = f123(1,2,3,4); var r = f123(1,2,3,k);` with `k` not a literal. -/
def scenario6Program : List Node :=
  [.funcDecl "f123" ["a", "b", "c", "d"]
     [.ret (some (.binary "+" (.binary "+" (.binary "+" (.ident "a") (.ident "b"))
       (.ident "c")) (.ident "d")))],
   .varDecl "var" [.varDeclarator "x"
     (some (.call (.ident "f123") [.numLit 1, .numLit 2, .numLit 3, .numLit 4]))],
   .varDecl "var" [.varDeclarator "r"
     (some (.call (.ident "f123") [.numLit 1, .numLit 2, .numLit 3, .ident "k"]))]]

/-- Sandbox semantics of `f123`: the sum of its four arguments. -/
def scenario6Eval : String → List JsValue → Option JsValue := fun f args =>
  if f == "f123" && args == [JsValue.num 1, JsValue.num 2, JsValue.num 3, JsValue.num 4] then
    some (.num 10)
  else none

/-- The pure calls extracted from the Scenario 6 program. -/
def scenario6Calls : List CallInfo :=
  extractActualFunctionCalls defaultConfig scenario6Program

/-- The result map of the Scenario 6 run. -/
def scenario6ResultMap : List (String × JsValue) :=
  runDriver scenario6Eval scenario6Calls []

/-- The Scenario 6 tree after the rewrite pass (the `finalCode` handed to
the cleanup analysis in `processWithNewStrategy`, de.js 1729-1736). -/
def scenario6Rewritten : List Node :=
  applyCallExpressionReplacements defaultConfig scenario6ResultMap scenario6Program

/-- The cleanup sets the analyzer computes for the rewritten Scenario 6
tree. -/
def scenario6CleanupData : CleanupData :=
  (analyzeFunctionsForCleanup defaultConfig scenario6Rewritten scenario6ResultMap
    scenario6Calls).1

/-- The Scenario 6 tree after cleanup in `remove` mode. -/
def scenario6Cleaned : List Node :=
  cleanupDecryptedFunctions scenario6Rewritten scenario6CleanupData "remove"

/-- The Scenario 1 binding `var x = f123(1, 2, 3, 4);` alone, the failing
input of claim C8. -/
def declaratorCallProgram : List Node :=
  [.varDecl "var" [.varDeclarator "x"
    (some (.call (.ident "f123") [.numLit 1, .numLit 2, .numLit 3, .numLit 4]))]]

/-- The pure calls extracted from the declarator-call program: the
`VariableDeclarator` visitor records the node's default string form, the
`CallExpression` visitor records the printed call, so the same call node
yields two entries. -/
def declaratorCallInfos : List CallInfo :=
  extractActualFunctionCalls defaultConfig declaratorCallProgram

/-- The result map produced by the declarator-call run. -/
def declaratorCallResultMap : List (String × JsValue) :=
  runDriver scenario6Eval declaratorCallInfos []

/-- The chained reverse idiom
`"ab".split("").reverse().join("").split("").reverse().join("")`: one
rewrite pass leaves a fresh occurrence of the idiom behind. -/
def chainedReverseSource : String :=
  "\"ab\".split(\"\").reverse().join(\"\").split(\"\").reverse().join(\"\")"

/-- The single reverse idiom `"ab".split("").reverse().join("")`. -/
def singleReverseSource : String := "\"ab\".split(\"\").reverse().join(\"\")"

/-- Invariant of the looping-helper run: the VM job is forever cycling
through the two configurations of `while (true) {}` and the timeout
callback has not run. -/
def c3Invariant (p : NodeProcessState) : Prop :=
  (p.vmJob = some loopingHelperBody ∨ p.vmJob = some (.seq .skip loopingHelperBody)) ∧
    p.timeoutCallbackRan = false

/-- One event-loop turn preserves the looping-run invariant. -/
theorem c3_invariant_step (p : NodeProcessState) (h : c3Invariant p) :
    c3Invariant (nodeStep p) := by
  obtain ⟨hjob, ht⟩ := h
  rcases hjob with h1 | h1
  · exact ⟨Or.inr (by simp [nodeStep, h1, stepCmd, loopingHelperBody, evalB]),
      by simp [nodeStep, h1, ht]⟩
  · exact ⟨Or.inl (by simp [nodeStep, h1, stepCmd, loopingHelperBody, evalB]),
      by simp [nodeStep, h1, ht]⟩

/-- Any number of event-loop turns preserves the looping-run invariant. -/
theorem c3_invariant_run : ∀ (n : Nat) (p : NodeProcessState),
    c3Invariant p → c3Invariant (nodeRun n p)
  | 0, _, h => h
  | n + 1, p, h => c3_invariant_run n (nodeStep p) (c3_invariant_step p h)

/-- C3: the claim says the sandbox evaluation call is bounded by a 30-second
wall-clock timeout, returning with an empty result map even for a helper
that loops forever.  In the code, `vm.runInContext(testCode, context)` is
called with no timeout option, and under Node's run-to-completion semantics
the `setTimeout` guard callback can never run while the synchronous VM job
is still executing: for the helper `function f1(a,b,c,d){ while(true){} }`
the run never returns and the timeout callback never fires, for any number
of event-loop steps, so the process hangs rather than continuing with an
empty result map. -/
theorem c3_vm_run_never_interrupted :
    runInContextTimeoutOption = none ∧
    ∀ n : Nat, (nodeRun n vmExecutionStart).vmJob ≠ none ∧
      (nodeRun n vmExecutionStart).timeoutCallbackRan = false := by
  refine ⟨rfl, fun n => ?_⟩
  obtain ⟨hjob, ht⟩ := c3_invariant_run n vmExecutionStart ⟨Or.inl rfl, rfl⟩
  refine ⟨?_, ht⟩
  rcases hjob with h1 | h1 <;> simp [h1]

/-- C1 counterexample: for the program
`(function(){ f1(3); })(); var z = f1(3);` the call `f1(3)` inside the
immediately-invoked block lies in an initializer context, yet the run's
rewrite pass replaces it with the literal 7, because the result map
produced from the textually identical pure call outside the block carries
the key `f1(3)` and the rewriter matches calls by printed form only.  This
refutes the claim that no initializer-context call is ever rewritten. -/
theorem c1_counterexample :
    isInitializationFunction collisionInnerCallAncestors = true ∧
    applyCallExpressionReplacements defaultConfig collisionResultMap collisionProgram =
      [.exprStmt (.call (.functionExpr [] [.exprStmt (.numLit 7)]) []),
       .varDecl "var" [.varDeclarator "z" (some (.numLit 7))]] :=
  ⟨rfl, rfl⟩

/-- C1 (amended): an initializer-context call is protected from rewriting
exactly when its printed form is not a key of the result map.  For the
Scenario 2 input, the extractor accepts only the outside call `f2(10)` (the
call `f2(3)` inside the immediately-invoked block is rejected as an
initializer-context call), and the rewrite pass leaves the block - and
`f2(3)` within it - unchanged while producing `var y = 21`. -/
theorem c1_amended :
    scenario2Calls.map (fun c => (c.callExpression, c.funcName)) =
      [(nodeDefaultToString, "f2"), ("f2(10)", "f2")] ∧
    isInitializationFunction scenario2InnerCallAncestors = true ∧
    applyCallExpressionReplacements defaultConfig scenario2ResultMap scenario2Program =
      [.funcDecl "f1" ["x"] [.ret (some (.binary "*" (.ident "x") (.numLit 2)))],
       .funcDecl "f2" ["x"]
         [.ret (some (.binary "+" (.call (.ident "f1") [.ident "x"]) (.numLit 1)))],
       .exprStmt (.call (.functionExpr [] [.exprStmt (.call (.ident "f2") [.numLit 3])]) []),
       .varDecl "var" [.varDeclarator "y" (some (.numLit 21))]] :=
  ⟨rfl, rfl, rfl⟩

/-- C2: the claim says a helper deleted by the cleanup pass has zero
remaining references and that, in the Scenario 6 input, `f123` is never
marked dead while its non-literal call `f123(1,2,3,k)` survives.  In the
run on that input the rewriter replaces only `f123(1,2,3,4)`, yet the
cleanup analyzer still marks `f123` (its `isOnlyCalledByConstants` test is
an existential `some(...)` and the remaining reference count 1 does not
exceed the number of recorded constant calls), and cleanup in `remove` mode
deletes the definition while one syntactic reference to `f123` remains in
the output tree. -/
theorem c2_cleanup_deletes_referenced_helper :
    scenario6CleanupData.functions = ["f123"] ∧
    scenario6Cleaned =
      [.varDecl "var" [.varDeclarator "x" (some (.numLit 10))],
       .varDecl "var" [.varDeclarator "r"
         (some (.call (.ident "f123") [.numLit 1, .numLit 2, .numLit 3, .ident "k"]))]] ∧
    functionReferenceCount scenario6Cleaned "f123" = 1 :=
  ⟨rfl, rfl, rfl⟩

/-- C4 counterexample: with the default configuration (`min_args = 4`), the
single-argument call `f1(3)` lies outside the window `[4, 6]`, yet when its
printed form is a key of the run's result map the rewriter replaces it with
the literal 42.  This refutes the claim that calls with argument counts
outside the window are never replaced. -/
theorem c4_counterexample :
    defaultConfig.minArgs = 4 ∧
    applyCallExpressionReplacements defaultConfig oneArgResultMap oneArgProgram =
      [.varDecl "var" [.varDeclarator "y" (some (.numLit 42))]] :=
  ⟨rfl, rfl⟩

/-- C4 (amended): the rewriter does not enforce the argument-count window at
all.  Its gate `shouldInterceptFunction` is independent of the argument
count - the count feeds only a verbose log line - so for every
configuration and name the gate's verdict is the same at any two argument
counts, and a keyed call is rewritten regardless of its arity. -/
theorem c4_amended (cfg : Config) (funcName : String) (n m : Nat) :
    shouldInterceptFunction cfg funcName n = shouldInterceptFunction cfg funcName m := by
  unfold shouldInterceptFunction
  cases cfg.functionNamePatternTest <;> rfl

/-- C5: the claim says a call whose arguments are all literals, one of them
an explicit `undefined`, is accepted into the pure call set.  In the code,
`extractConstantArguments` maps an explicit `undefined` argument to the
very value that also serves as the non-constant sentinel, so the
`arg !== undefined` test fails and the call `f123(1, 2, 3, undefined)` is
rejected: the extractor returns no pure call for the program
`var r = f123(1, 2, 3, undefined);`. -/
theorem c5_explicit_undefined_rejected :
    extractConstantArguments undefinedArgList =
      [.num 1, .num 2, .num 3, .undefined] ∧
    (extractConstantArguments undefinedArgList).all isNotUndefined = false ∧
    extractActualFunctionCalls defaultConfig undefinedArgProgram = [] :=
  ⟨rfl, rfl, rfl⟩

/-- C6: for every call whose callee is a member access with a reserved-word
property, name resolution yields no callee name, so the call is never
extracted; and for the Scenario 4 program `obj.default(1, 2, 3, 4);` the
extractor returns no calls and the rewrite pass returns the program
unchanged for every result map (the rewriter only touches calls with plain
identifier callees). -/
theorem c6_reserved_word_guard (obj : Node) (propertyName : String)
    (resultMap : List (String × JsValue))
    (h : reservedKeywords.contains propertyName = true) :
    extractFunctionName (.member obj (.ident propertyName)) = none ∧
    extractActualFunctionCalls defaultConfig scenario4Program = [] ∧
    applyCallExpressionReplacements defaultConfig resultMap scenario4Program =
      scenario4Program := by
  refine ⟨?_, rfl, ?_⟩
  · show (if reservedKeywords.contains propertyName then none else some propertyName) = none
    rw [h]
    rfl
  · cases resultMap with
    | nil => rfl
    | cons a l => rfl

/-- C6 witness: the reserved-word guard theorem instantiated at
`obj.default(...)` with a nonempty result map. -/
theorem c6_reserved_word_guard_witness :
    extractFunctionName (.member (.ident "obj") (.ident "default")) = none ∧
    extractActualFunctionCalls defaultConfig scenario4Program = [] ∧
    applyCallExpressionReplacements defaultConfig [("k", JsValue.num 1)] scenario4Program =
      scenario4Program :=
  c6_reserved_word_guard (.ident "obj") "default" [("k", JsValue.num 1)] (by decide)

/-- C7 counterexample: on the chained idiom
`"ab".split("").reverse().join("").split("").reverse().join("")` one
rewrite pass yields `"ba".split("").reverse().join("")` (the replacement
scan resumes after the match, leaving a fresh occurrence), and a second
pass yields `"ab"`, so applying the rewrite twice differs from applying it
once.  This refutes the claimed idempotence. -/
theorem c7_counterexample :
    processStringReverse (processStringReverse chainedReverseSource) ≠
      processStringReverse chainedReverseSource := by decide

/-- A text with no occurrence of the reverse idiom is a fixed point of the
replacement scan, at every fuel. -/
theorem processReverseChars_of_no_idiom :
    ∀ (fuel : Nat) (cs : List Char), hasReverseIdiomChars cs = false →
      processReverseChars fuel cs = cs := by
  intro fuel
  induction fuel with
  | zero => intro cs _; rfl
  | succ n ih =>
    intro cs h
    cases cs with
    | nil => rfl
    | cons c rest =>
      have hpair := Bool.or_eq_false_iff.mp h
      rcases htm : tryMatchReverseIdiom (c :: rest) with _ | p
      · simp only [processReverseChars, htm]
        rw [ih rest hpair.2]
      · rw [htm] at hpair
        simp at hpair

/-- Rebuilding a string from its character list is the identity. -/
theorem string_mk_toList_self (s : String) : String.mk s.toList = s := by
  cases s
  rfl

/-- C7 (amended): the string-reverse rewrite is idempotent on every source
text whose once-rewritten form contains no further occurrence of the idiom;
chained occurrences, where a replaced literal is immediately followed by
another `.split("").reverse().join("")`, are the only violation. -/
theorem c7_amended (s : String)
    (h : hasReverseIdiom (processStringReverse s) = false) :
    processStringReverse (processStringReverse s) = processStringReverse s := by
  have hfix := processReverseChars_of_no_idiom (processStringReverse s).toList.length
    (processStringReverse s).toList h
  calc processStringReverse (processStringReverse s)
      = String.mk (processReverseChars (processStringReverse s).toList.length
          (processStringReverse s).toList) := rfl
    _ = String.mk (processStringReverse s).toList := by rw [hfix]
    _ = processStringReverse s := string_mk_toList_self _

/-- C7 witness: the amended idempotence applied to the single idiom
`"ab".split("").reverse().join("")`, whose rewrite `"ba"` contains no
further occurrence. -/
theorem c7_amended_witness :
    hasReverseIdiom (processStringReverse singleReverseSource) = false ∧
    processStringReverse (processStringReverse singleReverseSource) =
      processStringReverse singleReverseSource :=
  ⟨by decide, c7_amended singleReverseSource (by decide)⟩

/-- C8: the claim says every key of the result map is the printed form of a
pure call site.  For the input `var x = f123(1,2,3,4);` the
`VariableDeclarator` extraction visitor records the call under the raw
node's default string form `[object Object]` (de.js 867 calls `.toString()`
on a node, not on a path), the driver stores the sandbox result under that
key, and no call site's printed form equals it: both recorded call sites
print as `f123(1, 2, 3, 4)`. -/
theorem c8_default_tostring_key :
    mapKeys declaratorCallResultMap = [nodeDefaultToString, "f123(1, 2, 3, 4)"] ∧
    declaratorCallInfos.map (fun c => printTree c.node) =
      ["f123(1, 2, 3, 4)", "f123(1, 2, 3, 4)"] :=
  ⟨rfl, rfl⟩

/-- C9: for every input, the branch guarded by the unbound identifier
`shouldCleanupImmediateFunctions` never executes (the second component of
the result is `false`), and `analyzeFunctionsForCleanup` still returns
normally with exactly the cleanup sets accumulated before the guard: the
ReferenceError raised by the guard is caught by the function's enclosing
handler. -/
theorem c9_dead_branch_never_runs (cfg : Config) (program : List Node)
    (callExpressionMap : List (String × JsValue)) (actualCalls : List CallInfo) :
    analyzeFunctionsForCleanup cfg program callExpressionMap actualCalls =
      (analyzeCleanupSets cfg program callExpressionMap actualCalls, false) := rfl

/-- C10: each transformation phase is atomic on internal failure - when the
try body of preprocessing, of the call replacement pass, or of the cleanup
pass raises an exception, the phase catches it and returns its input source
text unchanged, for every input, configuration, result map, cleanup data
and mode. -/
theorem c10_phases_return_input_on_internal_error (e : JsError) (code : String)
    (cfg : Config) (resultMap : List (String × JsValue)) (data : CleanupData)
    (mode : String) :
    preprocessCode (fun _ => .error e) code = code ∧
    applyCallExpressionReplacementsOnSource (fun _ => .error e) cfg resultMap code = code ∧
    cleanupDecryptedFunctionsOnSource (fun _ => .error e) code data mode = code := by
  refine ⟨rfl, ?_, ?_⟩
  · unfold applyCallExpressionReplacementsOnSource
    split <;> rfl
  · unfold cleanupDecryptedFunctionsOnSource
    split <;> rfl
